import Mathlib

/-!
A verification development for the ntfy pub/sub broker (Go sources under
`server/` and `util/`). The Go code is shallowly embedded: pure fragments of
the handlers become Lean functions, the mutable broker state (topic map,
cache) becomes explicit state passing, and side effects (topic fan-out,
Firebase push, e-mail, cache writes) become explicit effect records. Machine
integers (Go `int64` unix timestamps, byte values) are modelled as `Int` and
`Nat`; none of the embedded arithmetic can overflow in the fragments below,
except `strconv.ParseInt`, whose int64 range check is made explicit.
HTTP header/query alias resolution (`readParam`) is abstracted: functions take
the already-resolved parameter strings ("" when the parameter is absent),
which is exactly what `readParam` returns.
-/

namespace Ntfy

/-! ## Errors (`server.go`, the `errHTTP` constants)

Only the code and HTTP status are carried; message text and doc link do not
affect control flow. -/

structure ErrHTTP where
  code : Nat
  httpCode : Nat
  deriving DecidableEq, Repr

def errHTTPBadRequestEmailDisabled : ErrHTTP := ⟨40001, 400⟩
def errHTTPBadRequestDelayNoCache : ErrHTTP := ⟨40002, 400⟩
def errHTTPBadRequestDelayNoEmail : ErrHTTP := ⟨40003, 400⟩
def errHTTPBadRequestDelayCannotParse : ErrHTTP := ⟨40004, 400⟩
def errHTTPBadRequestDelayTooSmall : ErrHTTP := ⟨40005, 400⟩
def errHTTPBadRequestDelayTooLarge : ErrHTTP := ⟨40006, 400⟩
def errHTTPBadRequestPriorityInvalid : ErrHTTP := ⟨40007, 400⟩
def errHTTPBadRequestSinceInvalid : ErrHTTP := ⟨40008, 400⟩
def errHTTPBadRequestTopicDisallowed : ErrHTTP := ⟨40010, 400⟩
def errHTTPBadRequestMessageNotUTF8 : ErrHTTP := ⟨40011, 400⟩
def errHTTPBadRequestAttachmentURLInvalid : ErrHTTP := ⟨40013, 400⟩
def errHTTPTooManyRequestsLimitTotalTopics : ErrHTTP := ⟨42904, 429⟩

instance {ε α : Type} [DecidableEq ε] [DecidableEq α] : DecidableEq (Except ε α)
  | .ok x, .ok y => if h : x = y then .isTrue (by simp [h]) else .isFalse (by simp [h])
  | .error x, .error y => if h : x = y then .isTrue (by simp [h]) else .isFalse (by simp [h])
  | .ok _, .error _ => .isFalse (by simp)
  | .error _, .ok _ => .isFalse (by simp)

/-! ## Message model (`server/message.go`) -/

def messageEvent : String := "message"
def openEvent : String := "open"
def keepaliveEvent : String := "keepalive"

/-- Attachment of a message. `type_`, `size`, `expires`, `owner` exist in the
Go struct; only the fields the embedded fragments inspect are kept. -/
structure Attachment where
  name : String := ""
  url : String := ""
  deriving DecidableEq, Repr

structure Message where
  id : String := ""
  time : Int := 0
  event : String := messageEvent
  topic : String := ""
  message : String := ""
  title : String := ""
  priority : Nat := 0
  tags : List String := []
  click : String := ""
  attachment : Option Attachment := none
  deriving DecidableEq, Repr

/-- Go `newDefaultMessage(topic, msg)`: a `message` event stamped with the
current time. -/
def newDefaultMessage (topic : String) (msg : String) (now : Int) : Message :=
  { id := "", time := now, event := messageEvent, topic := topic, message := msg }

/-! ## `util.ParsePriority` (util/util.go) -/

/-- Go `unicode.IsSpace` — the White_Space property — the exact character
set `strings.TrimSpace` trims: ASCII '\t' '\n' '\v' '\f' '\r' ' ', then
U+0085 (NEL), U+00A0 (NBSP), U+1680, U+2000..U+200A, U+2028, U+2029,
U+202F, U+205F and U+3000. -/
def isSpaceChar (c : Char) : Bool :=
  c == ' ' || c == '\t' || c == '\n' || c == '\x0b' || c == '\x0c' || c == '\r'
  || c.toNat == 0x85 || c.toNat == 0xA0 || c.toNat == 0x1680
  || (0x2000 ≤ c.toNat && c.toNat ≤ 0x200A)
  || c.toNat == 0x2028 || c.toNat == 0x2029 || c.toNat == 0x202F
  || c.toNat == 0x205F || c.toNat == 0x3000

def trimLeftChars : List Char → List Char
  | [] => []
  | c :: cs => if isSpaceChar c then trimLeftChars cs else c :: cs

/-- Go `strings.TrimSpace` on the character list. -/
def trimChars (cs : List Char) : List Char :=
  (trimLeftChars (trimLeftChars cs).reverse).reverse

/-- Go `unicode.ToLower` (the simple case mapping `strings.ToLower` applies
per rune), covering every code point whose lowercase form `ParsePriority`
can observe: ASCII A-Z lower into a-z, and — the only two code points
outside A-Z whose simple lowercase mapping is an ASCII letter — U+0130
(LATIN CAPITAL LETTER I WITH DOT ABOVE) lowers to 'i' and U+212A (KELVIN
SIGN) to 'k'. Every other code point is kept unchanged: its true lowercase
form is never an ASCII keyword letter, a digit or a whitespace character,
so after this map both it and its Go image fail the same keyword
comparisons and survive the same trim, leaving `ParsePriority`'s result
identical to Go's on every input. -/
def toLowerChar (c : Char) : Char :=
  if 'A' ≤ c ∧ c ≤ 'Z' then Char.ofNat (c.toNat + 32)
  else if c.toNat = 0x130 then 'i'
  else if c.toNat = 0x212A then 'k'
  else c

/-- Go `util.ParsePriority`: lowercases and trims the input, then maps the
priority words and digits; unknown values are an error (`none`). -/
def ParsePriority (priority : String) : Option Nat :=
  let cs := trimChars (priority.data.map toLowerChar)
  if cs = [] then some 0
  else if cs = ['1'] ∨ cs = ['m', 'i', 'n'] then some 1
  else if cs = ['2'] ∨ cs = ['l', 'o', 'w'] then some 2
  else if cs = ['3'] ∨ cs = ['d', 'e', 'f', 'a', 'u', 'l', 't'] then some 3
  else if cs = ['4'] ∨ cs = ['h', 'i', 'g', 'h'] then some 4
  else if cs = ['5'] ∨ cs = ['m', 'a', 'x'] ∨ cs = ['u', 'r', 'g', 'e', 'n', 't'] then some 5
  else none

/-- The priority slice of `parsePublishParams`: `util.ParsePriority` errors
are turned into `errHTTPBadRequestPriorityInvalid` (40007), otherwise the
parsed value is stored in `m.Priority`. -/
def parsePublishParamsPriority (m : Message) (priorityParam : String) :
    Except ErrHTTP Message :=
  match ParsePriority priorityParam with
  | some p => .ok { m with priority := p }
  | none => .error errHTTPBadRequestPriorityInvalid

/-! ## UTF-8 validity (Go `unicode/utf8.Valid`)

Faithful to RFC 3629 as implemented by Go: 1-byte `00..7F`; 2-byte lead
`C2..DF`; 3-byte leads `E0` (second byte `A0..BF`), `E1..EC`/`EE..EF`
(second byte `80..BF`), `ED` (second byte `80..9F`, excluding surrogates);
4-byte leads `F0` (second byte `90..BF`), `F1..F3` (`80..BF`),
`F4` (`80..8F`, capping at U+10FFFF); all further continuation bytes
`80..BF`. -/

/-- Range accepted for the byte following lead byte `b` (`lo`, `hi`),
`none` when `b` is not a valid multi-byte lead. -/
def utf8SecondByteRange (b : Nat) : Option (Nat × Nat) :=
  if 0xC2 ≤ b ∧ b ≤ 0xDF then some (0x80, 0xBF)
  else if b = 0xE0 then some (0xA0, 0xBF)
  else if 0xE1 ≤ b ∧ b ≤ 0xEC then some (0x80, 0xBF)
  else if b = 0xED then some (0x80, 0x9F)
  else if 0xEE ≤ b ∧ b ≤ 0xEF then some (0x80, 0xBF)
  else if b = 0xF0 then some (0x90, 0xBF)
  else if 0xF1 ≤ b ∧ b ≤ 0xF3 then some (0x80, 0xBF)
  else if b = 0xF4 then some (0x80, 0x8F)
  else none

/-- Number of continuation bytes after the second byte: 0 for two-byte
sequences (`b ≤ DF`), 1 for three-byte (`b ≤ EF`), 2 for four-byte. -/
def utf8TailLen (b : Nat) : Nat :=
  if b ≤ 0xDF then 0 else if b ≤ 0xEF then 1 else 2

def utf8IsCont (b : Nat) : Bool := 0x80 ≤ b && b ≤ 0xBF

/-- Go `utf8.Valid` on a byte list. -/
def utf8Valid : List Nat → Bool
  | [] => true
  | b :: rest =>
    if b < 0x80 then utf8Valid rest
    else match utf8SecondByteRange b with
      | none => false
      | some (lo, hi) =>
        match rest with
        | [] => false
        | c :: rest2 =>
          if lo ≤ c ∧ c ≤ hi then
            match utf8TailLen b, rest2 with
            | 0, rest3 => utf8Valid rest3
            | 1, d :: rest3 => utf8IsCont d && utf8Valid rest3
            | 2, d :: e :: rest3 => utf8IsCont d && utf8IsCont e && utf8Valid rest3
            | _, _ => false
          else false

/-! ## Body peeking (`util.Peak`) and body disposition (`handlePublishBody`) -/

/-- Go `util.PeakedReadCloser`: the first *message_limit* bytes of the request
body, plus whether the limit was reached before the body ended. -/
structure PeakedReadCloser where
  peakedBytes : List Nat := []
  limitReached : Bool := false
  deriving DecidableEq, Repr

inductive BodyDisposition where
  | asMessage
  | asAttachment
  deriving DecidableEq, Repr

/-- Condition `m.Attachment != nil && m.Attachment.URL != ""`. -/
def attachmentURLSet (m : Message) : Bool :=
  match m.attachment with | some a => a.url != "" | none => false

/-- Condition `m.Attachment != nil && m.Attachment.Name != ""`. -/
def attachmentNameSet (m : Message) : Bool :=
  match m.attachment with | some a => a.name != "" | none => false

/-- The branch structure of `handlePublishBody`: which of
`handleBodyAsMessage` / `handleBodyAsAttachment` consumes the body.
Mirrors the four cases of the Go conditional verbatim. -/
def handlePublishBody (m : Message) (body : PeakedReadCloser) : BodyDisposition :=
  if attachmentURLSet m then
    .asMessage -- Case 1
  else if attachmentNameSet m then
    .asAttachment -- Case 2
  else if !body.limitReached && utf8Valid body.peakedBytes then
    .asMessage -- Case 3
  else
    .asAttachment -- Case 4

/-- Go `handleBodyAsMessage`: rejects non-UTF-8 peeked bytes (40011); a
non-empty body overrides `m.Message` with the trimmed peeked text; an
attachment name with an empty message yields the default attachment text.
The byte-to-string decoding of `PeakedBytes` is abstracted as `decode`. -/
def handleBodyAsMessage (m : Message) (body : PeakedReadCloser)
    (decode : List Nat → String) : Except ErrHTTP Message :=
  if !utf8Valid body.peakedBytes then
    .error errHTTPBadRequestMessageNotUTF8
  else
    let m := if body.peakedBytes.length > 0 then
      { m with message := (decode body.peakedBytes).trim } else m
    let m := if attachmentNameSet m && m.message == "" then
      { m with message := "You received a file: " ++
        (match m.attachment with | some a => a.name | none => "") } else m
    .ok m

/-! ## The attachment slice of `parsePublishParams` -/

/-- The regex `^https?://`. -/
def attachURLValid (s : String) : Bool :=
  s.startsWith "http://" || s.startsWith "https://"

/-- The attach/filename slice of `parsePublishParams` (`server.go`):
builds `m.Attachment` from the `filename` and `attach` parameters ("" when
absent). `urlBaseName` abstracts Go's `url.Parse` + `path.Base` applied
to the attach URL (the code maps a result of "." or "/" to "", then falls
back to "attachment"). -/
def parseAttachmentParams (filenameParam attachParam : String)
    (urlBaseName : String → String) : Except ErrHTTP (Option Attachment) :=
  let att : Option Attachment :=
    if attachParam ≠ "" ∨ filenameParam ≠ "" then some {} else none
  let att := if filenameParam ≠ "" then
    att.map (fun a => { a with name := filenameParam }) else att
  if attachParam ≠ "" then
    if !attachURLValid attachParam then
      .error errHTTPBadRequestAttachmentURLInvalid
    else
      let att := att.map (fun a => { a with url := attachParam })
      let att := att.map (fun a =>
        if a.name = "" then
          let base := urlBaseName attachParam
          { a with name := if base = "." ∨ base = "/" then "" else base }
        else a)
      let att := att.map (fun a =>
        if a.name = "" then { a with name := "attachment" } else a)
      .ok att
  else
    .ok att

/-! ## `since` parsing (`parseSince`, `sinceTime` and its sentinels)

`sinceTime` wraps a `time.Time`; it is modelled in unix seconds. The two
sentinel values of `server.go` are `time.Unix(0,0)` and `time.Unix(1,0)`. -/

def sinceAllMessages : Int := 0
def sinceNoMessages : Int := 1

def sinceIsAll (t : Int) : Bool := t == sinceAllMessages
def sinceIsNone (t : Int) : Bool := t == sinceNoMessages

/-- Go `strconv.ParseInt(s, 10, 64)`: an optional sign followed by at least
one decimal digit, erroring when the value does not fit in int64. -/
def goParseInt64 (s : String) : Option Int :=
  let (neg, ds) : Bool × List Char :=
    match s.data with
    | '+' :: rest => (false, rest)
    | '-' :: rest => (true, rest)
    | rest => (false, rest)
  if ds.isEmpty then none
  else if !ds.all (fun c => '0' ≤ c && c ≤ '9') then none
  else
    let n : Nat := ds.foldl (fun acc c => acc * 10 + (c.toNat - '0'.toNat)) 0
    let v : Int := if neg then -(n : Int) else (n : Int)
    if -(2 ^ 63) ≤ v ∧ v ≤ 2 ^ 63 - 1 then some v else none

/-- Go `parseSince`: "" defaults to all messages for a poll and to no messages
for a stream; "all" is the all-sentinel; otherwise a unix timestamp, then a
duration ago. `parseDuration` abstracts Go's `time.ParseDuration` (result in
seconds; `none` = parse error). -/
def parseSince (since : String) (poll : Bool) (now : Int)
    (parseDuration : String → Option Int) : Except ErrHTTP Int :=
  if since = "" then
    if poll then .ok sinceAllMessages else .ok sinceNoMessages
  else if since = "all" then .ok sinceAllMessages
  else match goParseInt64 since with
    | some s => .ok s
    | none =>
      match parseDuration since with
      | some d => .ok (now - d)
      | none => .error errHTTPBadRequestSinceInvalid

/-! ## Message cache entries and replay (`sendOldMessages`) -/

structure CacheEntry where
  msg : Message
  published : Bool
  deriving DecidableEq, Repr

/-- Modelled from the spec: the message-cache backends (the in-memory and
sqlite caches) are not under src/. Per the spec (§4.2), `Messages(topic,
since, includeScheduled)` returns the topic's cached entries in order; the
"all" sentinel returns everything cached, otherwise exactly the entries with
time ≥ since; entries with published=false (scheduled) are excluded unless
includeScheduled is set. -/
def cacheMessagesSpec (entries : List CacheEntry) (topic : String) (since : Int)
    (scheduled : Bool) : List Message :=
  (entries.filter (fun e => e.msg.topic == topic
    && (e.published || scheduled)
    && (sinceIsAll since || decide (e.msg.time ≥ since)))).map (·.msg)

/-- Go `sendOldMessages`: nothing is replayed for the no-messages sentinel;
otherwise each topic's cached messages are replayed in order. -/
def sendOldMessages (entries : List CacheEntry) (topics : List String)
    (since : Int) (scheduled : Bool) : List Message :=
  if sinceIsNone since then []
  else topics.flatMap (fun t => cacheMessagesSpec entries t since scheduled)

/-! ## Query filters (`passesQueryFilter`) -/

/-- Modelled from the spec: `util.InIntList` is not under src/; membership of
the needle in the haystack. -/
def InIntList (haystack : List Nat) (needle : Nat) : Bool :=
  haystack.contains needle

/-- Modelled from the spec: `util.InStringListAll` is not under src/; per the
spec, tag filtering "requires the message tag set to contain EVERY filter
tag". -/
def InStringListAll (haystack : List String) (needles : List String) : Bool :=
  needles.all (fun n => haystack.contains n)

/-- Go `passesQueryFilter`: mirrors the Go cascade verbatim. -/
def passesQueryFilter (msg : Message) (messageFilter titleFilter : String)
    (priorityFilter : List Nat) (tagsFilter : List String) : Bool :=
  if msg.event != messageEvent then true -- filters only apply to messages
  else if messageFilter != "" && msg.message != messageFilter then false
  else if titleFilter != "" && msg.title != titleFilter then false
  else
    let messagePriority := if msg.priority = 0 then 3 else msg.priority
    if priorityFilter.length > 0 && !InIntList priorityFilter messagePriority then
      false
    else if tagsFilter.length > 0 && !InStringListAll msg.tags tagsFilter then
      false
    else true

/-- The query-filter semantics as the spec states them, for comparison:
a non-`message` event always passes; a `message` event passes iff each
non-empty filter matches, where priority 0 counts as 3 and the tag filter
requires every filter tag to be among the message's tags. -/
def specPassesQueryFilter (msg : Message) (messageFilter titleFilter : String)
    (priorityFilter : List Nat) (tagsFilter : List String) : Bool :=
  (msg.event != messageEvent)
  || ((messageFilter == "" || msg.message == messageFilter)
    && (titleFilter == "" || msg.title == titleFilter)
    && (priorityFilter.isEmpty
      || priorityFilter.contains (if msg.priority = 0 then 3 else msg.priority))
    && (tagsFilter.isEmpty || tagsFilter.all (fun tag => msg.tags.contains tag)))

/-! ## Topic resolution (`topicsFromIDs`) -/

def disallowedTopics : List String := ["docs", "static", "file"]

/-- The topic-name regex `^[-_A-Za-z0-9]{1,64}$`. -/
def topicNameValid (s : String) : Bool :=
  1 ≤ s.length && s.length ≤ 64 && s.data.all (fun c =>
    c == '-' || c == '_' || (decide ('A' ≤ c) && decide (c ≤ 'Z'))
    || (decide ('a' ≤ c) && decide (c ≤ 'z'))
    || (decide ('0' ≤ c) && decide (c ≤ '9')))

/-- Go `topicsFromIDs`: resolves or creates the named topics under the broker
lock. The broker's `topics` map is modelled as the list of existing topic
ids (duplicate-free); because the Go map is mutated in place, insertions
made before an error return persist, so the (possibly grown) map is
returned together with the resolved ids and the error, if any. -/
def topicsFromIDs (totalTopicLimit : Nat) (tmap : List String) :
    List String → List String × Except ErrHTTP (List String)
  | [] => (tmap, .ok [])
  | id :: rest =>
    if disallowedTopics.contains id then
      (tmap, .error errHTTPBadRequestTopicDisallowed)
    else if tmap.contains id then
      match topicsFromIDs totalTopicLimit tmap rest with
      | (m, .ok ts) => (m, .ok (id :: ts))
      | (m, .error e) => (m, .error e)
    else if totalTopicLimit ≤ tmap.length then
      (tmap, .error errHTTPTooManyRequestsLimitTotalTopics)
    else
      match topicsFromIDs totalTopicLimit (tmap ++ [id]) rest with
      | (m, .ok ts) => (m, .ok (id :: ts))
      | (m, .error e) => (m, .error e)

/-! ## Publish side effects (`handlePublish`) -/

/-- Which side effects one successful publish performs. `firebaseTask` and
`emailTask` are the fire-and-forget goroutines spawned with `go func(...)`;
`fanout` is the call to `t.Publish(m)`; `cached` is `cache.AddMessage(m)`. -/
structure PublishEffects where
  fanout : Bool
  firebaseTask : Bool
  emailTask : Bool
  cached : Bool
  deriving DecidableEq, Repr

/-- The effect part of `handlePublish` after body handling: `delayed` is
`m.Time > time.Now().Unix()`; the live fan-out and both hooks are skipped
for delayed messages; caching happens iff requested. -/
def handlePublishEffects (hasFirebaseHook hasMailer : Bool)
    (cache firebase : Bool) (email : String) (mtime now : Int) : PublishEffects :=
  let delayed := decide (mtime > now)
  { fanout := !delayed
    firebaseTask := hasFirebaseHook && firebase && !delayed
    emailTask := hasMailer && (email != "") && !delayed
    cached := cache }

/-- The cache/delay/email slice of `parsePublishParams`: the `cache`
parameter ("no" disables), then the delay parameter, whose combination with
cache=no or an e-mail is rejected, and whose parsed time must lie within
[now+MinDelay, now+MaxDelay]. `parsedDelay` abstracts
`util.ParseFutureTime(delayStr, now)` (unix seconds; `none` = parse error).
Returns the cache flag and the message time (`m.Time`, initialised to `now`
by `newDefaultMessage` and overwritten by a valid delay). -/
def parseDelayParams (cacheParam delayParam email : String)
    (parsedDelay : Option Int) (minDelay maxDelay now : Int) :
    Except ErrHTTP (Bool × Int) :=
  let cache := cacheParam != "no"
  if delayParam = "" then .ok (cache, now)
  else if !cache then .error errHTTPBadRequestDelayNoCache
  else if email ≠ "" then .error errHTTPBadRequestDelayNoEmail
  else match parsedDelay with
    | none => .error errHTTPBadRequestDelayCannotParse
    | some d =>
      if d < now + minDelay then .error errHTTPBadRequestDelayTooSmall
      else if d > now + maxDelay then .error errHTTPBadRequestDelayTooLarge
      else .ok (cache, d)

/-- Modelled from the spec: the cache backends are not under src/; per the
spec (§3), a cache entry for a message with delivery time T > now is stored
with published=false, otherwise with published=true. -/
def cachePublishedFlag (mtime now : Int) : Bool := !(decide (mtime > now))

/-! ## The scheduled-delivery loop (`sendDelayedMessages`) -/

/-- One call made while processing a due message, with whether it errored. -/
inductive DueAction where
  | published (id : String) (ok : Bool)
  | firebaseSent (id : String) (ok : Bool)
  | marked (id : String) (ok : Bool)
  deriving DecidableEq, Repr

def DueAction.msgId : DueAction → String
  | .published i _ => i
  | .firebaseSent i _ => i
  | .marked i _ => i

/-- The environment a `sendDelayedMessages` run sees: which topics exist in
the broker's map, whether the Firebase hook is configured, and oracles for
whether each call succeeds. -/
structure DueEnv where
  topics : List String
  firebaseConfigured : Bool
  publishOk : Message → Bool
  firebaseOk : Message → Bool
  markOk : Message → Bool

/-- The calls made for one due message: `t.Publish` if the topic still
exists, the Firebase hook if configured, then `MarkPublished`. -/
def sendDelayedOne (env : DueEnv) (m : Message) : List DueAction :=
  (if env.topics.contains m.topic then [.published m.id (env.publishOk m)] else [])
  ++ (if env.firebaseConfigured then [.firebaseSent m.id (env.firebaseOk m)] else [])
  ++ [.marked m.id (env.markOk m)]

/-- One run of `sendDelayedMessages` over `MessagesDue()`: errors from
`t.Publish` and the Firebase hook are only logged and the loop continues,
but an error from `cache.MarkPublished(m)` is returned, which ends the loop.
Returns the calls made and whether the run completed without returning an
error. -/
def sendDelayedMessages (env : DueEnv) : List Message → List DueAction × Bool
  | [] => ([], true)
  | m :: rest =>
    let acts := sendDelayedOne env m
    if env.markOk m then
      let (more, ok) := sendDelayedMessages env rest
      (acts ++ more, ok)
    else (acts, false)

/-! ## Visitor staleness (`visitor.go` and `updateStatsAndPrune`) -/

/-- Constant `oneDay` in seconds. -/
def oneDay : Int := 24 * 60 * 60

/-- Constant `visitorExpungeAfter = oneDay`: the fixed inactivity window after which
a visitor is removed from memory. -/
def visitorExpungeAfter : Int := oneDay

/-- Go `visitor.Stale()`: `time.Since(v.seen) > visitorExpungeAfter`. -/
def visitorStale (seen now : Int) : Bool :=
  decide (now - seen > visitorExpungeAfter)

structure VisitorEntry where
  ip : String
  seen : Int
  deriving DecidableEq, Repr

/-- The visitor-expiry step of `updateStatsAndPrune`: every stale visitor is
deleted from the visitors map. -/
def expireVisitors (now : Int) (visitors : List VisitorEntry) : List VisitorEntry :=
  visitors.filter (fun v => !visitorStale v.seen now)

/-- The staleness threshold as the CLAIM states it, for comparison: one full
refill interval of the visitor's request token bucket — burst capacity times
the replenish interval — or a configured minimum, whichever is larger. -/
def claimedStaleThreshold (requestLimitBurst : Nat)
    (requestLimitReplenish configuredMinimum : Int) : Int :=
  max ((requestLimitBurst : Int) * requestLimitReplenish) configuredMinimum

/-- Staleness as the claim would have it. -/
def claimedStale (burst : Nat) (replenish minCfg seen now : Int) : Bool :=
  decide (now - seen > claimedStaleThreshold burst replenish minCfg)

/-! ## Per-connection event ordering (`handleSubscribe`)

The writes one streaming subscribe connection can observe. The handler
itself writes, in program order: the `open` event, then the replayed cached
messages. The subscriber callback is registered on every topic BEFORE those
writes, so a concurrent publisher can invoke the callback — which takes the
per-connection write mutex and writes a live message — at any interleaving
point, including before `open`. Admissible connection traces are therefore
the interleavings of the handler's write sequence with the live writes. -/

inductive ConnEvent where
  | openEv
  | replay (i : Nat)
  | live (i : Nat)
  deriving DecidableEq, Repr

/-- The handler's own writes in program order (`sub(newOpenMessage(...))`,
then `sendOldMessages`): `open`, then the `replayCount` cached messages in
cache order. -/
def handlerEmits (replayCount : Nat) : List ConnEvent :=
  ConnEvent.openEv :: (List.range replayCount).map ConnEvent.replay

/-- Whether `tr` is an interleaving of `xs` and `ys` (each kept in order). -/
def isInterleaving : List ConnEvent → List ConnEvent → List ConnEvent → Bool
  | xs, ys, [] => xs.isEmpty && ys.isEmpty
  | xs, ys, t :: tr =>
    (match xs with
     | x :: xs2 => x == t && isInterleaving xs2 ys tr
     | [] => false)
    || (match ys with
     | y :: ys2 => y == t && isInterleaving xs ys2 tr
     | [] => false)

/-- The write sequences one non-poll subscribe connection admits: the
handler's `open`-then-replay writes interleaved with `liveCount` live
messages (live writes are serialised among themselves by the write mutex
and arrive in topic-publish order). -/
def connAdmissible (replayCount liveCount : Nat) (tr : List ConnEvent) : Bool :=
  isInterleaving (handlerEmits replayCount)
    ((List.range liveCount).map ConnEvent.live) tr

/-! # Theorems -/

/-- C9: `util.ParsePriority` maps the empty string to 0 (unset), the words
min/low/default/high and the digits 1..5 to their integer values, and
"urgent" and "max" to 5, so a publish with priority=urgent carries
priority 5; any unrecognized priority value makes the publish fail with
error 40007. -/
theorem claim_C9 :
    ParsePriority "" = some 0
    ∧ (ParsePriority "1" = some 1 ∧ ParsePriority "min" = some 1)
    ∧ (ParsePriority "2" = some 2 ∧ ParsePriority "low" = some 2)
    ∧ (ParsePriority "3" = some 3 ∧ ParsePriority "default" = some 3)
    ∧ (ParsePriority "4" = some 4 ∧ ParsePriority "high" = some 4)
    ∧ (ParsePriority "5" = some 5 ∧ ParsePriority "max" = some 5
        ∧ ParsePriority "urgent" = some 5)
    ∧ (∀ m : Message,
        parsePublishParamsPriority m "urgent" = .ok { m with priority := 5 })
    ∧ (∀ (m : Message) (s : String), ParsePriority s = none →
        parsePublishParamsPriority m s = .error errHTTPBadRequestPriorityInvalid) := by
  refine ⟨by decide, ⟨by decide, by decide⟩, ⟨by decide, by decide⟩,
    ⟨by decide, by decide⟩, ⟨by decide, by decide⟩,
    ⟨by decide, by decide, by decide⟩, ?_, ?_⟩
  · intro m
    unfold parsePublishParamsPriority
    rw [(by decide : ParsePriority "urgent" = some 5)]
  · intro m s h
    unfold parsePublishParamsPriority
    rw [h]

/-- C9 witness: priority=bogus is rejected with 40007. -/
theorem claim_C9_witness :
    parsePublishParamsPriority {} "bogus" = .error errHTTPBadRequestPriorityInvalid :=
  claim_C9.2.2.2.2.2.2.2 {} "bogus" (by decide)

/-- C10: `parseSince` reuses unix timestamps 0 and 1 as internal sentinels:
since=0 parses to the all-messages sentinel and since=1 to the no-messages
sentinel, so these two inputs deviate from plain "time ≥ unix" filtering —
since=1 replays nothing although a cached message with time 5 ≥ 1 exists,
and since=0 replays even a cached message with time -3 < 0. -/
theorem claim_C10 :
    (∀ (poll : Bool) (now : Int) (dp : String → Option Int),
      parseSince "0" poll now dp = .ok sinceAllMessages
      ∧ parseSince "1" poll now dp = .ok sinceNoMessages)
    ∧ sendOldMessages [⟨{ id := "m", time := 5, topic := "t" }, true⟩] ["t"] 1 false = []
    ∧ sendOldMessages [⟨{ id := "m", time := -3, topic := "t" }, true⟩] ["t"] 0 false
        = [{ id := "m", time := -3, topic := "t" }] := by
  refine ⟨fun poll now dp => ⟨rfl, rfl⟩, by decide, by decide⟩

/-- C5: with no since parameter a streaming subscribe replays no cached
messages while a poll replays all cached messages of the topic; since=all
replays everything cached; a since value that is neither "all", an integer
unix timestamp, nor a parseable duration yields error 40008. -/
theorem claim_C5 :
    (∀ (now : Int) (dp : String → Option Int),
      parseSince "" false now dp = .ok sinceNoMessages
      ∧ parseSince "" true now dp = .ok sinceAllMessages
      ∧ ∀ poll, parseSince "all" poll now dp = .ok sinceAllMessages)
    ∧ (∀ (entries : List CacheEntry) (topics : List String) (scheduled : Bool),
        sendOldMessages entries topics sinceNoMessages scheduled = [])
    ∧ (∀ (entries : List CacheEntry) (topic : String),
        sendOldMessages entries [topic] sinceAllMessages false
          = (entries.filter (fun e => e.msg.topic == topic && e.published)).map (·.msg))
    ∧ (∀ (s : String) (poll : Bool) (now : Int) (dp : String → Option Int),
        s ≠ "" → s ≠ "all" → goParseInt64 s = none → dp s = none →
        parseSince s poll now dp = .error errHTTPBadRequestSinceInvalid) := by
  refine ⟨fun now dp => ⟨rfl, rfl, fun poll => rfl⟩, fun entries topics scheduled => rfl,
    ?_, ?_⟩
  · intro entries topic
    simp only [sendOldMessages, sinceIsNone, sinceAllMessages, sinceNoMessages]
    norm_num
    simp only [List.flatMap_cons, List.flatMap_nil, List.append_nil, cacheMessagesSpec]
    congr 1
    apply List.filter_congr
    intro e _
    simp [sinceIsAll, sinceAllMessages]
  · intro s poll now dp h1 h2 h3 h4
    simp only [parseSince, if_neg h1, if_neg h2, h3, h4]

/-- C5 witness: since=bogus yields 40008. -/
theorem claim_C5_witness :
    parseSince "bogus" false 0 (fun _ => none) = .error errHTTPBadRequestSinceInvalid :=
  claim_C5.2.2.2 "bogus" false 0 (fun _ => none) (by decide) (by decide) (by decide) rfl

/-- C6: query filtering on a subscription applies only to `message` events —
`open` and `keepalive` always pass; a message with priority 0 is treated as
priority 3 for the priority filter; a tag-filtered message passes only if
its tag set contains every filter tag. Stated as: the Go cascade equals the
filter semantics as the spec words them. -/
theorem claim_C6 (msg : Message) (messageFilter titleFilter : String)
    (priorityFilter : List Nat) (tagsFilter : List String) :
    passesQueryFilter msg messageFilter titleFilter priorityFilter tagsFilter
      = specPassesQueryFilter msg messageFilter titleFilter priorityFilter tagsFilter := by
  unfold passesQueryFilter specPassesQueryFilter InIntList InStringListAll
  cases h1 : (msg.event != messageEvent) <;>
    simp only [h1, Bool.false_or, Bool.true_or, if_true, if_false, Bool.true_eq]
  split_ifs with h2 h3 h4 h5 <;>
    simp_all [List.isEmpty_iff, List.length_pos_iff_ne_nil, not_or] <;>
    tauto

/-- Facts a successful `parseDelayParams` guarantees: the cache flag is the
`cache` parameter, no delay parameter leaves the message time at `now`, and
a delay parameter forces caching. -/
theorem parseDelayParams_ok_facts {cacheParam delayParam email : String}
    {parsedDelay : Option Int} {minDelay maxDelay now : Int} {cachev : Bool}
    {mtime : Int}
    (h : parseDelayParams cacheParam delayParam email parsedDelay minDelay maxDelay now
      = .ok (cachev, mtime)) :
    cachev = (cacheParam != "no") ∧ (delayParam = "" → mtime = now)
      ∧ (delayParam ≠ "" → cachev = true) := by
  unfold parseDelayParams at h
  by_cases hd : delayParam = ""
  · rw [if_pos hd] at h
    simp only [Except.ok.injEq, Prod.mk.injEq] at h
    exact ⟨h.1.symm, fun _ => h.2.symm, fun hne => absurd hd hne⟩
  · rw [if_neg hd] at h
    by_cases hc : (!(cacheParam != "no")) = true
    · rw [if_pos hc] at h
      exact absurd h (by simp)
    · rw [if_neg hc] at h
      by_cases he : email ≠ ""
      · rw [if_pos he] at h
        exact absurd h (by simp)
      · rw [if_neg he] at h
        cases parsedDelay with
        | none => exact absurd h (by simp)
        | some d =>
          simp only at h
          by_cases h1 : d < now + minDelay
          · rw [if_pos h1] at h
            exact absurd h (by simp)
          · rw [if_neg h1] at h
            by_cases h2 : d > now + maxDelay
            · rw [if_pos h2] at h
              exact absurd h (by simp)
            · rw [if_neg h2] at h
              simp only [Except.ok.injEq, Prod.mk.injEq] at h
              refine ⟨h.1.symm, fun h' => absurd h' hd, fun _ => ?_⟩
              rw [← h.1]
              revert hc
              cases (cacheParam != "no") <;> simp

/-- C2: after a successful parameter parse, a publish whose message time is
strictly in the future performs no live fan-out, spawns neither the Firebase
push task nor the e-mail task, and is cached (a delay forces caching) with
published=false; a non-delayed publish fans out via the topic, is cached iff
caching was requested (published=true), and spawns the push and e-mail tasks
exactly when the respective hook is configured and requested. -/
theorem claim_C2 (hasFirebaseHook hasMailer : Bool)
    (cacheParam delayParam email : String) (parsedDelay : Option Int)
    (minDelay maxDelay now : Int) (cachev : Bool) (mtime : Int)
    (firebaseFlag : Bool)
    (h : parseDelayParams cacheParam delayParam email parsedDelay minDelay maxDelay now
      = .ok (cachev, mtime)) :
    (mtime > now →
      handlePublishEffects hasFirebaseHook hasMailer cachev firebaseFlag email mtime now
        = { fanout := false, firebaseTask := false, emailTask := false, cached := true }
      ∧ cachePublishedFlag mtime now = false)
    ∧ (mtime ≤ now →
      (handlePublishEffects hasFirebaseHook hasMailer cachev firebaseFlag email mtime now).fanout
          = true
      ∧ (handlePublishEffects hasFirebaseHook hasMailer cachev firebaseFlag email mtime now).cached
          = cachev
      ∧ cachePublishedFlag mtime now = true
      ∧ (handlePublishEffects hasFirebaseHook hasMailer cachev firebaseFlag email mtime now).firebaseTask
          = (hasFirebaseHook && firebaseFlag)
      ∧ (handlePublishEffects hasFirebaseHook hasMailer cachev firebaseFlag email mtime now).emailTask
          = (hasMailer && (email != ""))) := by
  obtain ⟨hcache, hnod, hdel⟩ := parseDelayParams_ok_facts h
  constructor
  · intro hgt
    have hne : delayParam ≠ "" := by
      intro hd
      have := hnod hd
      omega
    have hct : cachev = true := hdel hne
    have hgt' : decide (mtime > now) = true := decide_eq_true hgt
    subst hct
    constructor
    · simp [handlePublishEffects, hgt']
    · simp [cachePublishedFlag, hgt']
  · intro hle
    have hgt' : decide (mtime > now) = false := decide_eq_false (by omega)
    refine ⟨by simp [handlePublishEffects, hgt'], by simp [handlePublishEffects],
      by simp [cachePublishedFlag, hgt'], by simp [handlePublishEffects, hgt'],
      by simp [handlePublishEffects, hgt']⟩

/-- C2 witness: a delayed publish (delay parsed to now+60, within bounds)
skips fan-out and both hooks and caches with published=false. -/
theorem claim_C2_witness :
    handlePublishEffects true true true true "a@b.c" 1060 1000
        = { fanout := false, firebaseTask := false, emailTask := false, cached := true }
      ∧ cachePublishedFlag 1060 1000 = false :=
  (claim_C2 true true "" "60s" "" (some 1060) 10 3600 1000 true 1060 true rfl).1
    (by norm_num)

/-- Environment for the C3 counterexample: topic "t" exists, no Firebase,
`MarkPublished` fails on message m1 only. -/
def c3Env : DueEnv :=
  { topics := ["t"], firebaseConfigured := false,
    publishOk := fun _ => true, firebaseOk := fun _ => true,
    markOk := fun m => m.id != "m1" }

/-- Environment for the C3 witness: same but every `MarkPublished` call
succeeds. -/
def c3EnvOk : DueEnv :=
  { topics := ["t"], firebaseConfigured := false,
    publishOk := fun _ => true, firebaseOk := fun _ => true,
    markOk := fun _ => true }

/-- C3 counterexample: with two due messages m1 and m2 (both topics exist),
a `MarkPublished` error on m1 aborts the run — no call at all is made for
m2, contradicting "every other due message in that run is still
processed". -/
theorem claim_C3_counterexample :
    sendDelayedMessages c3Env
        [{ id := "m1", topic := "t" }, { id := "m2", topic := "t" }]
      = ([.published "m1" true, .marked "m1" false], false)
    ∧ (sendDelayedMessages c3Env
        [{ id := "m1", topic := "t" }, { id := "m2", topic := "t" }]).1.filter
          (fun a => a.msgId == "m2") = [] := by
  exact ⟨rfl, rfl⟩

/-- C3 (amended): in a scheduled-delivery run, errors from the topic publish
and from the push hook are only logged and never abort the batch — when
`MarkPublished` succeeds on every due message, every due message is fully
processed (published to its topic if it still exists, pushed if the hook is
configured, then marked published), whatever the publish/push outcomes; but
a `MarkPublished` error is returned and ends the run at that message. -/
theorem claim_C3 (env : DueEnv) (msgs : List Message) :
    ((∀ m ∈ msgs, env.markOk m = true) →
      sendDelayedMessages env msgs = (msgs.flatMap (sendDelayedOne env), true))
    ∧ (∀ (m : Message) (rest : List Message), env.markOk m = false →
      sendDelayedMessages env (m :: rest) = (sendDelayedOne env m, false)) := by
  constructor
  · induction msgs with
    | nil => intro _; rfl
    | cons m rest ih =>
      intro hall
      have hm : env.markOk m = true := hall m (List.mem_cons_self m rest)
      have hrest := ih (fun x hx => hall x (List.mem_cons_of_mem m hx))
      simp [sendDelayedMessages, hm, hrest]
  · intro m rest hm
    simp [sendDelayedMessages, hm]

/-- C3 witness: with all marks succeeding the single due message is fully
processed; with a failing mark the run ends in error after that message. -/
theorem claim_C3_witness :
    sendDelayedMessages c3EnvOk [{ id := "m1", topic := "t" }]
        = ([{ id := "m1", topic := "t" }].flatMap (sendDelayedOne c3EnvOk), true)
    ∧ sendDelayedMessages c3Env [{ id := "m1", topic := "t" }]
        = (sendDelayedOne c3Env { id := "m1", topic := "t" }, false) :=
  ⟨(claim_C3 c3EnvOk [{ id := "m1", topic := "t" }]).1 (by decide),
    (claim_C3 c3Env [{ id := "m1", topic := "t" }]).2 { id := "m1", topic := "t" } []
      (by decide)⟩

/-- C8 counterexample: `visitor.Stale` compares against the fixed constant
`visitorExpungeAfter` (24 h), not against the request limiter's refill
interval. A visitor with request burst 1 and replenish interval 48 h (full
refill 48 h) that has been inactive for 30 h is stale per the code, yet the
claimed threshold max(48 h, minimum) exceeds 30 h for EVERY configured
minimum, so the claim predicts "not stale". -/
theorem claim_C8_counterexample :
    visitorStale 0 108000 = true
    ∧ ∀ minCfg : Int, claimedStale 1 172800 minCfg 0 108000 = false := by
  refine ⟨by decide, ?_⟩
  intro m
  have h : (172800 : Int) ≤ claimedStaleThreshold 1 172800 m := by
    unfold claimedStaleThreshold
    calc (172800 : Int) = ((1 : Nat) : Int) * 172800 := by norm_num
    _ ≤ max (((1 : Nat) : Int) * 172800) m := le_max_left _ _
  unfold claimedStale
  rw [decide_eq_false_iff_not]
  omega

/-- C8 (amended): the staleness threshold is the fixed constant
`visitorExpungeAfter` = one day = 86400 s, independent of the visitor's
limiters; the manager loop's prune step keeps a visitor iff its inactivity
does not exceed that constant. -/
theorem claim_C8 (now : Int) (visitors : List VisitorEntry) (v : VisitorEntry)
    (hv : v ∈ visitors) :
    visitorExpungeAfter = 86400
    ∧ (visitorStale v.seen now = true ↔ now - v.seen > 86400)
    ∧ (v ∈ expireVisitors now visitors ↔ now - v.seen ≤ 86400) := by
  refine ⟨rfl, ?_, ?_⟩
  · simp [visitorStale, visitorExpungeAfter, oneDay]
  · simp [expireVisitors, List.mem_filter, hv, visitorStale, visitorExpungeAfter, oneDay]

/-- C8 witness: a visitor inactive for 50000 s < 86400 s survives the
prune. -/
theorem claim_C8_witness :
    (⟨"1.2.3.4", 0⟩ : VisitorEntry) ∈ expireVisitors 50000 [⟨"1.2.3.4", 0⟩] :=
  ((claim_C8 50000 [⟨"1.2.3.4", 0⟩] ⟨"1.2.3.4", 0⟩ (by decide)).2.2).mpr (by norm_num)

/-- A disallowed topic name that is not already in the broker's topic map is
never inserted by `topicsFromIDs` (the disallowed check precedes
creation). -/
theorem topicsFromIDs_disallowed_not_created (limit : Nat) (d : String)
    (hd : d ∈ disallowedTopics) :
    ∀ (ids tmap : List String), d ∉ tmap → d ∉ (topicsFromIDs limit tmap ids).1 := by
  intro ids
  induction ids with
  | nil =>
    intro tmap h
    simpa [topicsFromIDs] using h
  | cons id rest ih =>
    intro tmap h
    unfold topicsFromIDs
    by_cases h1 : disallowedTopics.contains id = true
    · simp only [h1, if_true]
      exact h
    · simp only [h1, if_false, Bool.false_eq_true]
      by_cases h2 : tmap.contains id = true
      · simp only [h2, if_true]
        have := ih tmap h
        cases hrec : topicsFromIDs limit tmap rest with
        | mk m e =>
          rw [hrec] at this
          cases e <;> simpa using this
      · simp only [h2, if_false, Bool.false_eq_true]
        by_cases h3 : limit ≤ tmap.length
        · simp only [h3, if_true]
          exact h
        · simp only [h3, if_false]
          have hne : d ≠ id := by
            intro he
            exact h1 (by rw [← he]; exact List.elem_eq_true_of_mem hd)
          have hnotin : d ∉ tmap ++ [id] := by
            simp [h, hne]
          have := ih (tmap ++ [id]) hnotin
          cases hrec : topicsFromIDs limit (tmap ++ [id]) rest with
          | mk m e =>
            rw [hrec] at this
            cases e <;> simpa using this

/-- C7 counterexample: (1) resolving the subscribe topics "a,docs" on an
empty broker fails with 40010, yet the new topic "a" HAS been created and
stays in the topic map — contradicting "no new topic is created"; (2) with
the topic limit already reached, the request "b,docs" fails with 42904, not
40010. -/
theorem claim_C7_counterexample :
    topicsFromIDs 10 [] ["a", "docs"]
        = (["a"], .error errHTTPBadRequestTopicDisallowed)
    ∧ topicsFromIDs 1 ["x"] ["b", "docs"]
        = (["x"], .error errHTTPTooManyRequestsLimitTotalTopics) :=
  ⟨rfl, rfl⟩

/-- C7 (amended): a request naming only a reserved topic (docs, static,
file) fails with 40010 and leaves the topic map unchanged; in a multi-topic
request a reserved name that is not already a topic is never created, though
allowed new names processed before the failure are (and an earlier fresh
name can also trip the 42904 topic limit first); a non-reserved name is
accepted iff it already exists or the topic count is below the limit, and
yields 42904 otherwise. -/
theorem claim_C7 (limit : Nat) (tmap : List String) (id : String)
    (ids : List String) :
    (id ∈ disallowedTopics →
      topicsFromIDs limit tmap [id] = (tmap, .error errHTTPBadRequestTopicDisallowed))
    ∧ (∀ d ∈ disallowedTopics, d ∉ tmap → d ∉ (topicsFromIDs limit tmap ids).1)
    ∧ (id ∉ disallowedTopics →
        (tmap.contains id = true →
          topicsFromIDs limit tmap [id] = (tmap, .ok [id]))
        ∧ (tmap.contains id = false → tmap.length < limit →
          topicsFromIDs limit tmap [id] = (tmap ++ [id], .ok [id]))
        ∧ (tmap.contains id = false → limit ≤ tmap.length →
          topicsFromIDs limit tmap [id]
            = (tmap, .error errHTTPTooManyRequestsLimitTotalTopics))) := by
  refine ⟨?_, fun d hd => topicsFromIDs_disallowed_not_created limit d hd ids tmap, ?_⟩
  · intro hid
    simp only [topicsFromIDs]
    rw [if_pos (by simpa using hid)]
  · intro hid
    refine ⟨?_, ?_, ?_⟩
    · intro h2
      have hmem : id ∈ tmap := by simpa using h2
      simp [topicsFromIDs, hid, hmem]
    · intro h2 h3
      have hmem : id ∉ tmap := by simpa using h2
      simp [topicsFromIDs, hid, hmem, Nat.not_le.mpr h3]
    · intro h2 h3
      have hmem : id ∉ tmap := by simpa using h2
      simp [topicsFromIDs, hid, hmem, h3]

/-- C7 witness: a single-topic request for "docs" fails with 40010 and
creates nothing; topic "chat" is accepted and created below the limit. -/
theorem claim_C7_witness :
    topicsFromIDs 5 ["x"] ["docs"] = (["x"], .error errHTTPBadRequestTopicDisallowed)
    ∧ topicsFromIDs 5 ["x"] ["chat"] = (["x", "chat"], .ok ["chat"]) :=
  ⟨(claim_C7 5 ["x"] "docs" []).1 (by decide),
    ((claim_C7 5 ["x"] "chat" []).2.2 (by decide)).2.1 (by decide) (by decide)⟩

/-- Shape of the attachment a successful `parseAttachmentParams` leaves on
the message: no parameters → no attachment; filename only → named
attachment with empty URL; attach URL given → attachment whose URL is the
attach parameter. -/
theorem parseAttachmentParams_ok_shape {f a : String} {ubn : String → String}
    {att : Option Attachment}
    (h : parseAttachmentParams f a ubn = .ok att) :
    (a = "" ∧ f = "" ∧ att = none)
    ∨ (a = "" ∧ f ≠ "" ∧ att = some ⟨f, ""⟩)
    ∨ (a ≠ "" ∧ ∃ a', att = some a' ∧ a'.url = a) := by
  by_cases ha : a = ""
  · subst ha
    by_cases hf : f = ""
    · subst hf
      left
      simp only [parseAttachmentParams] at h
      simp at h
      exact ⟨rfl, rfl, h.symm⟩
    · right; left
      refine ⟨rfl, hf, ?_⟩
      simp only [parseAttachmentParams] at h
      simp [hf] at h
      exact h.symm
  · right; right
    refine ⟨ha, ?_⟩
    by_cases hv : attachURLValid a = true
    · by_cases hf : f = ""
      · subst hf
        simp only [parseAttachmentParams] at h
        simp [ha, hv] at h
        refine ⟨_, h.symm, ?_⟩
        split <;> rfl
      · simp only [parseAttachmentParams] at h
        simp [ha, hv, hf] at h
        exact ⟨_, h.symm, rfl⟩
    · exfalso
      simp only [parseAttachmentParams] at h
      simp [ha, hv] at h

/-- C1: after a successful attachment-parameter parse, the body disposition
of a publish follows the ordered rules: an attach URL parameter makes the
body the message text; else a filename parameter makes the body the
attachment; else a peeked body that is valid UTF-8 and did not exceed the
message limit is the message text; else the body is the attachment. -/
theorem claim_C1 (filenameParam attachParam : String)
    (urlBaseName : String → String) (m0 : Message) (att : Option Attachment)
    (body : PeakedReadCloser)
    (h : parseAttachmentParams filenameParam attachParam urlBaseName = .ok att) :
    handlePublishBody { m0 with attachment := att } body =
      (if attachParam ≠ "" then .asMessage
       else if filenameParam ≠ "" then .asAttachment
       else if !body.limitReached && utf8Valid body.peakedBytes then .asMessage
       else .asAttachment) := by
  rcases parseAttachmentParams_ok_shape h with ⟨ha, hf, hatt⟩ | ⟨ha, hf, hatt⟩
    | ⟨ha, a', hatt, hurl⟩ <;> subst hatt
  · subst ha hf
    simp [handlePublishBody, attachmentURLSet, attachmentNameSet]
  · subst ha
    rw [if_neg (by simp), if_pos hf]
    simp [handlePublishBody, attachmentURLSet, attachmentNameSet, hf]
  · rw [if_pos ha]
    simp [handlePublishBody, attachmentURLSet, hurl, ha]

/-- C1 witness: with no attach/filename parameters and a short UTF-8 body
("h"), the body is the message text. -/
theorem claim_C1_witness :
    handlePublishBody { ({} : Message) with attachment := none }
        { peakedBytes := [104], limitReached := false } = .asMessage := by
  have := claim_C1 "" "" (fun _ => "") {} none
    { peakedBytes := [104], limitReached := false } rfl
  simpa using this

/-- In any interleaving of `xs` and `ys`, both `xs` and `ys` occur as
subsequences. -/
theorem isInterleaving_sublist :
    ∀ (tr xs ys : List ConnEvent), isInterleaving xs ys tr = true →
      xs.Sublist tr ∧ ys.Sublist tr := by
  intro tr
  induction tr with
  | nil =>
    intro xs ys h
    cases xs <;> cases ys <;> simp_all [isInterleaving]
  | cons t tr ih =>
    intro xs ys h
    unfold isInterleaving at h
    rw [Bool.or_eq_true] at h
    cases h with
    | inl h1 =>
      cases xs with
      | nil => simp at h1
      | cons x xs2 =>
        simp only [Bool.and_eq_true, beq_iff_eq] at h1
        obtain ⟨hx, h2⟩ := h1
        subst hx
        obtain ⟨hxs, hys⟩ := ih xs2 ys h2
        exact ⟨hxs.cons₂ x, hys.cons x⟩
    | inr h2 =>
      cases ys with
      | nil => simp at h2
      | cons y ys2 =>
        simp only [Bool.and_eq_true, beq_iff_eq] at h2
        obtain ⟨hy, h3⟩ := h2
        subst hy
        obtain ⟨hxs, hys⟩ := ih xs ys2 h3
        exact ⟨hxs.cons y, hys.cons₂ y⟩

/-- C4 counterexample: the subscriber callback is registered before the
handler writes the open event, so the trace live-then-open-then-replay is an
admissible connection write order — yet in it the replayed message does NOT
precede the live message, and the open event does not precede it either,
contradicting the claimed open → replay → live ordering. -/
theorem claim_C4_counterexample :
    connAdmissible 1 1 [ConnEvent.live 0, ConnEvent.openEv, ConnEvent.replay 0] = true
    ∧ ¬ ([ConnEvent.replay 0, ConnEvent.live 0].Sublist
        [ConnEvent.live 0, ConnEvent.openEv, ConnEvent.replay 0])
    ∧ ¬ ([ConnEvent.openEv, ConnEvent.live 0].Sublist
        [ConnEvent.live 0, ConnEvent.openEv, ConnEvent.replay 0]) :=
  ⟨by decide, by decide, by decide⟩

/-- C4 (amended): on every admissible write order of a streaming subscribe
connection, the open event precedes every replayed cached message, and the
replayed messages appear in cache order; a live message, however, may be
delivered at any point after the callback registration — possibly before
the open event or between replayed messages. -/
theorem claim_C4 (replayCount liveCount : Nat) (tr : List ConnEvent)
    (h : connAdmissible replayCount liveCount tr = true) :
    (∀ i < replayCount, [ConnEvent.openEv, ConnEvent.replay i].Sublist tr)
    ∧ (∀ i j, i < j → j < replayCount →
        [ConnEvent.replay i, ConnEvent.replay j].Sublist tr) := by
  have hs : (handlerEmits replayCount).Sublist tr :=
    (isInterleaving_sublist tr (handlerEmits replayCount)
      ((List.range liveCount).map ConnEvent.live) h).1
  constructor
  · intro i hi
    refine List.Sublist.trans ?_ hs
    unfold handlerEmits
    exact List.Sublist.cons₂ _
      (List.singleton_sublist.mpr (List.mem_map.mpr ⟨i, List.mem_range.mpr hi, rfl⟩))
  · intro i j hij hj
    refine List.Sublist.trans ?_ hs
    unfold handlerEmits
    refine List.Sublist.cons _ ?_
    have h1 : [i, j].Sublist (List.range replayCount) := by
      have hji : [i].Sublist (List.range j) :=
        List.singleton_sublist.mpr (List.mem_range.mpr hij)
      have happ : ([i] ++ [j]).Sublist (List.range j ++ [j]) :=
        List.Sublist.append hji (List.Sublist.refl _)
      rw [← List.range_succ] at happ
      exact happ.trans (List.range_sublist.mpr hj)
    simpa using List.Sublist.map ConnEvent.replay h1

/-- C4 witness: in the trace open-then-replay (no live messages), the open
event precedes the replayed message. -/
theorem claim_C4_witness :
    [ConnEvent.openEv, ConnEvent.replay 0].Sublist [ConnEvent.openEv, ConnEvent.replay 0] :=
  (claim_C4 1 0 [ConnEvent.openEv, ConnEvent.replay 0] (by decide)).1 0 (by decide)

end Ntfy
